import Mathlib

set_option maxHeartbeats 1000000

/-!
Verification of the steveo New Relic trace provider.

The repository holds two variants of the same provider:
* `src/src/index.ts` — `getTraceProvider(newrelic)`, a factory closing over the
  `newrelic` module; its `deserializeTraceMetadata` calls `JSON.parse` with no
  guard, so a malformed token makes the returned promise reject.
* `src/unnamed/part_000` — `traceProvider`, importing `newrelic` directly; its
  `deserializeTraceMetadata` wraps the parse in `try/catch` and a `typeof`
  check, returning `{}` on any malformed token.

The embedding below models JavaScript values, the JSON codec (`JSON.parse` /
the `JSON.stringify` instance applied to the flat string-valued header object
that `insertDistributedTraceHeaders` fills in), and the New Relic backend as a
state-and-event-log machine.  `async` functions are modelled as functions into
`Except JsError`: a thrown error is a rejected promise.  The one shared mutable
`traceContext` object is carried in the machine state, so in-place mutation by
`wrapHandler` and by the wrapped callback is observable.
-/

/-- A JSON value as produced by `JSON.parse`.  Numbers keep their source
lexeme: the provider never computes with numbers, it only stores and compares
parsed values, so the grammar-level representation is exact for our purposes
(and avoids floating point, which is not modelled). -/
inductive JsonValue where
  | null
  | bool (b : Bool)
  | num (lexeme : String)
  | str (s : String)
  | arr (elems : List JsonValue)
  | obj (members : List (String × JsonValue))

/-- JavaScript errors distinguishable by the provider's code paths. -/
inductive JsError where
  | error (message : String)
  | SyntaxError (message : String)
  | typeError (message : String)
deriving DecidableEq, Repr

/-- An `unknown`-typed argument, quotiented by the only test the code performs
on it (`typeof x !== "string"`): either a string, or some non-string value. -/
inductive JsUnknown where
  | str (s : String)
  | nonString

/-! ## JSON whitespace and string escaping -/

/-- The four insignificant characters of the JSON grammar. -/
def isJsonWs (c : Char) : Bool :=
  c == ' ' || c == '\t' || c == '\n' || c == '\r'

/-- Drop leading JSON whitespace. -/
def skipWs : List Char → List Char
  | [] => []
  | c :: cs => if isJsonWs c then skipWs cs else c :: cs

/-- Lowercase hexadecimal digit for `n < 16`, as `JSON.stringify` emits. -/
def hexDigit (n : Nat) : Char :=
  if n < 10 then Char.ofNat ('0'.toNat + n) else Char.ofNat ('a'.toNat + (n - 10))

/-- Numeric value of one hexadecimal digit (either case), if any. -/
def hexVal (c : Char) : Option Nat :=
  if '0' ≤ c ∧ c ≤ '9' then some (c.toNat - '0'.toNat)
  else if 'a' ≤ c ∧ c ≤ 'f' then some (c.toNat - 'a'.toNat + 10)
  else if 'A' ≤ c ∧ c ≤ 'F' then some (c.toNat - 'A'.toNat + 10)
  else none

/-- How `JSON.stringify` emits one character of a string: quote and backslash
get a backslash, the five named control characters get their short escapes,
the remaining control characters get `\u00xx`, everything else is literal. -/
def escapeChar (c : Char) : List Char :=
  if c = '"' then ['\\', '"']
  else if c = '\\' then ['\\', '\\']
  else if c = '\x08' then ['\\', 'b']
  else if c = '\t' then ['\\', 't']
  else if c = '\n' then ['\\', 'n']
  else if c = '\x0c' then ['\\', 'f']
  else if c = '\r' then ['\\', 'r']
  else if c.toNat < 0x20 then
    ['\\', 'u', '0', '0', hexDigit (c.toNat / 16), hexDigit (c.toNat % 16)]
  else [c]

/-- Escape every character of a string body. -/
def escapeChars (cs : List Char) : List Char :=
  cs.foldr (fun c acc => escapeChar c ++ acc) []

/-- A JSON string literal: quotes around the escaped body. -/
def quoteChars (s : String) : List Char :=
  '"' :: (escapeChars s.data ++ ['"'])

/-! ## The `JSON.stringify` instance used by `serializeTraceMetadata`

`serializeTraceMetadata` applies `JSON.stringify` to the plain object that
`transaction.insertDistributedTraceHeaders` filled with string-valued carrier
headers, so the needed instance of the stringifier is the one for a flat map
of strings (`JSON.stringify` emits members in insertion order, unseparated by
whitespace). -/

/-- One rendered object member, `"key":"value"`. -/
def memberChars (kv : String × String) : List Char :=
  quoteChars kv.1 ++ ':' :: quoteChars kv.2

/-- Comma-separated rendered members. -/
def membersChars : List (String × String) → List Char
  | [] => []
  | [kv] => memberChars kv
  | kv :: rest => memberChars kv ++ ',' :: membersChars rest

/-- `JSON.stringify` of a flat string-to-string header object. -/
def stringifyHeaders (headers : List (String × String)) : String :=
  ⟨'{' :: (membersChars headers ++ ['}'])⟩

/-- The `JsonValue` that parsing a serialized header object yields. -/
def headersJson (headers : List (String × String)) : JsonValue :=
  JsonValue.obj (headers.map fun kv => (kv.1, JsonValue.str kv.2))

/-! ## `JSON.parse` -/

/-- Decode one short escape (the character after a lone backslash). -/
def unescapeChar : Char → Option Char
  | '"' => some '"'
  | '\\' => some '\\'
  | '/' => some '/'
  | 'b' => some '\x08'
  | 'f' => some '\x0c'
  | 'n' => some '\n'
  | 'r' => some '\r'
  | 't' => some '\t'
  | _ => none

/-- Read a string body up to its closing quote, undoing escapes; raw control
characters are rejected as the JSON grammar demands.  Returns the decoded
characters and the unconsumed input. -/
def parseStringBody : List Char → Option (List Char × List Char)
  | [] => none
  | '"' :: rest => some ([], rest)
  | '\\' :: 'u' :: h1 :: h2 :: h3 :: h4 :: rest =>
    match hexVal h1, hexVal h2, hexVal h3, hexVal h4 with
    | some a, some b, some c, some d =>
      (parseStringBody rest).map fun p =>
        (Char.ofNat (((a * 16 + b) * 16 + c) * 16 + d) :: p.1, p.2)
    | _, _, _, _ => none
  | '\\' :: e :: rest =>
    match unescapeChar e with
    | some c => (parseStringBody rest).map fun p => (c :: p.1, p.2)
    | none => none
  | c :: rest =>
    if c.toNat < 0x20 then none
    else (parseStringBody rest).map fun p => (c :: p.1, p.2)

/-- Longest leading run of decimal digits. -/
def takeDigits : List Char → List Char × List Char
  | [] => ([], [])
  | c :: cs =>
    if c.isDigit then
      let p := takeDigits cs
      (c :: p.1, p.2)
    else ([], c :: cs)

/-- The fraction part of a JSON number, if the input starts one. -/
def parseFracPart : List Char → Option (List Char × List Char)
  | '.' :: rest =>
    let p := takeDigits rest
    if p.1 = [] then none else some ('.' :: p.1, p.2)
  | cs => some ([], cs)

/-- The exponent part of a JSON number, if the input starts one. -/
def parseExpPart : List Char → Option (List Char × List Char)
  | c :: rest =>
    if c = 'e' ∨ c = 'E' then
      match rest with
      | s :: rest2 =>
        if s = '+' ∨ s = '-' then
          let p := takeDigits rest2
          if p.1 = [] then none else some (c :: s :: p.1, p.2)
        else
          let p := takeDigits rest
          if p.1 = [] then none else some (c :: p.1, p.2)
      | [] => none
    else some ([], c :: rest)
  | [] => some ([], [])

/-- The integer part of a JSON number after the optional sign: a lone `0`, or
a nonzero digit followed by digits. -/
def parseIntPart : List Char → Option (List Char × List Char)
  | '0' :: rest => some (['0'], rest)
  | c :: rest =>
    if c.isDigit then
      let p := takeDigits rest
      some (c :: p.1, p.2)
    else none
  | [] => none

/-- A whole JSON number lexeme: `-? int frac? exp?`. -/
def parseNumberLexeme (cs : List Char) : Option (List Char × List Char) :=
  let signed : List Char × List Char :=
    match cs with
    | '-' :: rest => (['-'], rest)
    | _ => ([], cs)
  match parseIntPart signed.2 with
  | none => none
  | some (ip, r1) =>
    match parseFracPart r1 with
    | none => none
    | some (fp, r2) =>
      match parseExpPart r2 with
      | none => none
      | some (ep, r3) => some (signed.1 ++ ip ++ fp ++ ep, r3)

mutual

/-- Recursive-descent JSON value parser.  `fuel` is a structural-termination
budget decremented on every inter-procedural step; callers supply
`input length + 1`, which dominates the recursion depth since every step
consumes input. -/
def parseValue : Nat → List Char → Option (JsonValue × List Char)
  | 0, _ => none
  | _ + 1, [] => none
  | fuel + 1, c :: rest =>
    if c = 'n' then
      match rest with
      | 'u' :: 'l' :: 'l' :: r => some (JsonValue.null, r)
      | _ => none
    else if c = 't' then
      match rest with
      | 'r' :: 'u' :: 'e' :: r => some (JsonValue.bool true, r)
      | _ => none
    else if c = 'f' then
      match rest with
      | 'a' :: 'l' :: 's' :: 'e' :: r => some (JsonValue.bool false, r)
      | _ => none
    else if c = '"' then
      (parseStringBody rest).map fun p => (JsonValue.str ⟨p.1⟩, p.2)
    else if c = '[' then
      match skipWs rest with
      | ']' :: r => some (JsonValue.arr [], r)
      | r => parseElems fuel r []
    else if c = '{' then
      match skipWs rest with
      | '}' :: r => some (JsonValue.obj [], r)
      | r => parseMembers fuel r []
    else
      (parseNumberLexeme (c :: rest)).map fun p => (JsonValue.num ⟨p.1⟩, p.2)

/-- Comma-separated array elements (at least one), ending at `]`. -/
def parseElems : Nat → List Char → List JsonValue → Option (JsonValue × List Char)
  | 0, _, _ => none
  | fuel + 1, cs, acc =>
    match parseValue fuel cs with
    | none => none
    | some (v, r) =>
      match skipWs r with
      | ',' :: r2 => parseElems fuel (skipWs r2) (acc ++ [v])
      | ']' :: r2 => some (JsonValue.arr (acc ++ [v]), r2)
      | _ => none

/-- Comma-separated object members (at least one), ending at `}`. -/
def parseMembers : Nat → List Char → List (String × JsonValue) → Option (JsonValue × List Char)
  | 0, _, _ => none
  | fuel + 1, cs, acc =>
    match cs with
    | '"' :: r0 =>
      match parseStringBody r0 with
      | none => none
      | some (k, r1) =>
        match skipWs r1 with
        | ':' :: r2 =>
          match parseValue fuel (skipWs r2) with
          | none => none
          | some (v, r3) =>
            match skipWs r3 with
            | ',' :: r4 => parseMembers fuel (skipWs r4) (acc ++ [(⟨k⟩, v)])
            | '}' :: r4 => some (JsonValue.obj (acc ++ [(⟨k⟩, v)]), r4)
            | _ => none
        | _ => none
    | _ => none

end

/-- The error `JSON.parse` throws on malformed input. -/
def jsonSyntaxError : JsError :=
  JsError.SyntaxError "Unexpected token in JSON"

/-- `JSON.parse`: a complete JSON document with optional surrounding
whitespace; anything else throws a `SyntaxError`. -/
def jsonParse (s : String) : Except JsError JsonValue :=
  match parseValue (s.data.length + 1) (skipWs s.data) with
  | some (v, rest) =>
    if skipWs rest = [] then Except.ok v else Except.error jsonSyntaxError
  | none => Except.error jsonSyntaxError

/-! ## JavaScript truthiness, as tested by `if (context.distributedTraceHeaders)` -/

/-- Whether a JSON number lexeme denotes zero: every digit of its integer and
fraction parts is `0` (the exponent cannot change that). -/
def jsonNumIsZero (lexeme : String) : Bool :=
  ((lexeme.data.takeWhile fun c => c ≠ 'e' ∧ c ≠ 'E').filter Char.isDigit).all
    fun c => c = '0'

/-- JavaScript truthiness of a parsed JSON value: `null`, `false`, `0` and
`""` are falsy; every object and array is truthy. -/
def JsonValue.truthy : JsonValue → Bool
  | JsonValue.null => false
  | JsonValue.bool b => b
  | JsonValue.num lexeme => !(jsonNumIsZero lexeme)
  | JsonValue.str s => !(s = "")
  | JsonValue.arr _ => true
  | JsonValue.obj _ => true

/-- Truthiness of a possibly-absent field (`undefined` is falsy). -/
def jsTruthyOpt : Option JsonValue → Bool
  | none => false
  | some v => v.truthy

/-! ## Data model: transactions, the trace context, the backend machine -/

/-- The opaque transaction handle New Relic hands out: an identity, plus the
downstream-linkage headers `insertDistributedTraceHeaders` would write for
this transaction. -/
structure Transaction where
  id : Nat
  outbound : List (String × String)

/-- The untyped mutable `traceContext` object.  `txName`, `transaction` and
`distributedTraceHeaders` are the fields the provider reads or writes;
`extra` stands for whatever other properties the application put on the same
object, untouched by the provider. -/
structure TraceContext where
  txName : Option String := none
  transaction : Option Transaction := none
  distributedTraceHeaders : Option JsonValue := none
  extra : List (String × String) := []

/-- Observable calls into the New Relic backend, in order. -/
inductive Event where
  | txStart (txId : Nat) (name : String)
  | txEnd (txId : Nat) (name : String)
  | acceptHeaders (txId : Nat) (category : String) (headers : JsonValue)
  | segStart (name : String) (trackAsync : Bool)
  | segEnd (name : String)
  | errorNoticed (e : JsError)

/-- Machine state: the one shared mutable context object, the backend's
transaction counter, the ambient active transaction, and the linkage headers
the backend currently hands out to new transactions. -/
structure World where
  ctx : TraceContext := {}
  nextTxId : Nat := 0
  activeTx : Option Transaction := none
  backendOutbound : List (String × String) := []

/-- An `async` computation: from a state to a settled result (`Except.error`
is a rejected promise), the final state, and the backend calls it made. -/
abbrev M (α : Type) : Type :=
  World → Except JsError α × World × List Event

/-- Prefix a computation's result with already-emitted events. -/
def prependEvents (evs : List Event) (r : Except JsError Unit × World × List Event) :
    Except JsError Unit × World × List Event :=
  (r.1, r.2.1, evs ++ r.2.2)

/-! ## The consumed New Relic capability surface -/

/-- `newrelic.startBackgroundTransaction(name, work)`: opens a fresh
transaction carrying the backend's current outbound linkage, makes it
ambient for the extent of `work`, and closes it exactly once when `work`
settles — fulfilled or rejected — propagating `work`'s outcome. -/
def nrStartBackgroundTransaction (name : String) (work : M Unit) : M Unit :=
  fun w =>
    let tx : Transaction := ⟨w.nextTxId, w.backendOutbound⟩
    let r := work { w with nextTxId := w.nextTxId + 1, activeTx := some tx }
    (r.1, { r.2.1 with activeTx := w.activeTx },
      Event.txStart tx.id name :: (r.2.2 ++ [Event.txEnd tx.id name]))

/-- `newrelic.getTransaction()`: the ambient active transaction. -/
def nrGetTransaction : M (Option Transaction) :=
  fun w => (Except.ok w.activeTx, w, [])

/-- `newrelic.startSegment(name, record, work)`: runs `work` attributed to a
named segment, closing the segment when `work` settles either way. -/
def nrStartSegment (name : String) (trackAsync : Bool) (work : M Unit) : M Unit :=
  fun w =>
    let r := work w
    (r.1, r.2.1, Event.segStart name trackAsync :: (r.2.2 ++ [Event.segEnd name]))

/-- `newrelic.noticeError(err)`: fire-and-forget error report against the
ambient transaction state; never throws, never changes the machine state. -/
def nrNoticeError (err : JsError) : M Unit :=
  fun w => (Except.ok (), w, [Event.errorNoticed err])

/-- The shape of the `newrelic` module the factory closes over. -/
structure NewRelicModule where
  startBackgroundTransaction : String → M Unit → M Unit
  getTransaction : M (Option Transaction)
  startSegment : String → Bool → M Unit → M Unit
  noticeError : JsError → M Unit

/-- The concrete backend model. -/
def newrelicModule : NewRelicModule :=
  ⟨nrStartBackgroundTransaction, nrGetTransaction, nrStartSegment, nrNoticeError⟩

/-! ## The provider operations (`src/src/index.ts`)

Each operation takes the `newrelic` module the factory closed over as its
first argument; `newrelicModule` instantiates it with the concrete backend
model. -/

/-- `${x}` for a possibly-undefined string, as template literals render it. -/
def jsTemplateString : Option String → String
  | some s => s
  | none => "undefined"

/-- JavaScript `a || b` for a possibly-undefined string `a`: the empty string
and `undefined` are falsy. -/
def jsStringOrDefault : Option String → String → String
  | some s, d => if s = "" then d else s
  | none, d => d

/-- The body `startBackgroundTransaction` runs for `wrapHandler`: read the
ambient transaction onto the context, accept (then delete) truthy inbound
linkage under the `"Queue"` carrier category, and run the callback on the
mutated context. -/
def wrapHandlerBody (newrelic : NewRelicModule) (callback : M Unit) : M Unit :=
  fun w =>
    match newrelic.getTransaction w with
    | (Except.error e, w1, ev) => (Except.error e, w1, ev)
    | (Except.ok t, w1, ev) =>
      let c1 := { w1.ctx with transaction := t }
      let w2 := { w1 with ctx := c1 }
      match c1.distributedTraceHeaders with
      | some dth =>
        if dth.truthy then
          match c1.transaction with
          | none =>
            (Except.error (JsError.typeError "acceptDistributedTraceHeaders of null"),
              w2, ev)
          | some tr =>
            prependEvents (ev ++ [Event.acceptHeaders tr.id "Queue" dth])
              (callback { w2 with
                ctx := { c1 with distributedTraceHeaders := none } })
        else prependEvents ev (callback w2)
      | none => prependEvents ev (callback w2)

/-- `wrapHandler(txName, traceContext, callback)`: default a missing context
to `{}`, set its `txName` in place, and run `wrapHandlerBody` inside a fresh
background transaction scoped to the callback's asynchronous extent. -/
def wrapHandler (newrelic : NewRelicModule) (txName : String)
    (traceContext : Option TraceContext) (callback : M Unit) : M Unit :=
  fun w =>
    let context := traceContext.getD {}
    newrelic.startBackgroundTransaction txName (wrapHandlerBody newrelic callback)
      { w with ctx := { context with txName := some txName } }

/-- `wrapHandlerSegment(segmentName, traceContext, callback)`: run the
callback inside a segment named `segmentName`, or
`` `${traceContext?.txName}-segment` `` when `segmentName` is falsy, always
tracking across asynchronous suspension (`true`). -/
def wrapHandlerSegment (newrelic : NewRelicModule) (segmentName : Option String)
    (traceContext : Option TraceContext) (callback : M Unit) : M Unit :=
  newrelic.startSegment
    (jsStringOrDefault segmentName
      (jsTemplateString (traceContext.bind TraceContext.txName) ++ "-segment"))
    true callback

/-- `onError(err, _)`: report the error against the backend's ambient
transaction state; the context argument is unused. -/
def onError (newrelic : NewRelicModule) (err : JsError)
    (_traceContext : Option TraceContext) : M Unit :=
  newrelic.noticeError err

/-- The error thrown when serializing a context with no transaction handle. -/
def missingTransactionError : JsError :=
  JsError.error "Property `transaction` missing from context"

/-- `serializeTraceMetadata(traceContext)`: require a present transaction
handle, let it fill a fresh header object, and stringify that object.  A
missing handle (or missing context) throws; one is never synthesized. -/
def serializeTraceMetadata (traceContext : Option TraceContext) :
    Except JsError String :=
  match traceContext with
  | none => Except.error missingTransactionError
  | some context =>
    match context.transaction with
    | none => Except.error missingTransactionError
    | some transaction => Except.ok (stringifyHeaders transaction.outbound)

/-- `deserializeTraceMetadata(traceMetadata)` of `src/src/index.ts`:
`JSON.parse` with no guard, so a malformed token rejects with the parse
error; a well-formed token yields a fresh context carrying the parsed value
as `distributedTraceHeaders`. -/
def deserializeTraceMetadata (traceMetadata : String) :
    Except JsError TraceContext :=
  match jsonParse traceMetadata with
  | Except.ok v => Except.ok { distributedTraceHeaders := some v }
  | Except.error e => Except.error e

/-! ## The `traceProvider` variant (`src/unnamed/part_000`)

Its `wrapHandler`, `wrapHandlerSegment` and `onError` read the same as in
`src/src/index.ts`; the metadata codec differs in `deserializeTraceMetadata`'s
failure policy, so the codec operations are embedded separately. -/

namespace traceProvider

/-- `traceProvider.serializeTraceMetadata`: same body as the factory
variant's. -/
def serializeTraceMetadata (traceContext : Option TraceContext) :
    Except JsError String :=
  match traceContext with
  | none => Except.error missingTransactionError
  | some context =>
    match context.transaction with
    | none => Except.error missingTransactionError
    | some transaction => Except.ok (stringifyHeaders transaction.outbound)

/-- `traceProvider.deserializeTraceMetadata`: a non-string token returns
`{}`; a string token is parsed inside `try/catch`, returning `{}` on a parse
error instead of rethrowing. -/
def deserializeTraceMetadata (traceMetadata : JsUnknown) :
    Except JsError TraceContext :=
  match traceMetadata with
  | JsUnknown.nonString => Except.ok {}
  | JsUnknown.str s =>
    match jsonParse s with
    | Except.ok v => Except.ok { distributedTraceHeaders := some v }
    | Except.error _ => Except.ok {}

end traceProvider

/-! ## The factory (`getTraceProvider`) -/

/-- The provider interface: the five public operations. -/
structure TraceProvider where
  wrapHandler : String → Option TraceContext → M Unit → M Unit
  wrapHandlerSegment : Option String → Option TraceContext → M Unit → M Unit
  onError : JsError → Option TraceContext → M Unit
  serializeTraceMetadata : Option TraceContext → Except JsError String
  deserializeTraceMetadata : String → Except JsError TraceContext

/-- `getTraceProvider(newrelic)`: `undefined` when the backend module is
absent, otherwise the provider object closing over it. -/
def getTraceProvider (newrelic : Option NewRelicModule) : Option TraceProvider :=
  match newrelic with
  | none => none
  | some nr =>
    some
      { wrapHandler := wrapHandler nr
        wrapHandlerSegment := wrapHandlerSegment nr
        onError := onError nr
        serializeTraceMetadata := serializeTraceMetadata
        deserializeTraceMetadata := deserializeTraceMetadata }

/-! ## Proof-support definitions -/

/-- The backend-acceptance events `wrapHandler` emits for a given
`distributedTraceHeaders` field: one `acceptHeaders` when truthy, none
otherwise. -/
def acceptEvents (txId : Nat) (dth : Option JsonValue) : List Event :=
  match dth with
  | some v => if v.truthy then [Event.acceptHeaders txId "Queue" v] else []
  | none => []

/-- The `distributedTraceHeaders` field as the callback sees it: consumed
when it was truthy, untouched otherwise. -/
def consumedHeaders (dth : Option JsonValue) : Option JsonValue :=
  match dth with
  | some v => if v.truthy then none else some v
  | none => none

/-- The machine state at the instant `wrapHandler`'s callback starts, for a
passed-in context `c`: the same context object with `txName` set, the fresh
transaction attached, truthy linkage consumed and application fields intact;
the fresh transaction ambient. -/
def callbackWorld (txName : String) (c : TraceContext) (w : World) : World :=
  { ctx :=
      { txName := some txName
        transaction := some ⟨w.nextTxId, w.backendOutbound⟩
        distributedTraceHeaders := consumedHeaders c.distributedTraceHeaders
        extra := c.extra }
    nextTxId := w.nextTxId + 1
    activeTx := some ⟨w.nextTxId, w.backendOutbound⟩
    backendOutbound := w.backendOutbound }

/-- Recognizer for the close event of one particular transaction. -/
def isTxEndFor (txId : Nat) (name : String) (e : Event) : Bool :=
  match e with
  | Event.txEnd i m => i == txId && m == name
  | _ => false

/-- A callback that does nothing: `async () => {}`. -/
def pureCallback : M Unit :=
  fun w => (Except.ok (), w, [])

/-- A callback that rejects with `e` without doing anything else. -/
def throwCallback (e : JsError) : M Unit :=
  fun w => (Except.error e, w, [])

/-- A starting machine state for the concrete witnesses. -/
def initialWorld : World :=
  { ctx := {}, nextTxId := 0, activeTx := none,
    backendOutbound := [("newrelic", "linkage")] }

/-! ## Codec lemmas: parsing inverts the stringifier -/

/-- Hex digits emitted by the stringifier decode to their value. -/
theorem hexVal_hexDigit (d : Nat) (h : d < 16) : hexVal (hexDigit d) = some d := by
  interval_cases d <;> decide

/-- Parsing one escaped character undoes its escaping, whichever of the eight
escaping classes applies. -/
theorem parseStringBody_escapeChar (c : Char) (rest : List Char) :
    parseStringBody (escapeChar c ++ rest)
      = (parseStringBody rest).map fun p => (c :: p.1, p.2) := by
  by_cases h1 : c = '"'
  · subst h1; simp [escapeChar, parseStringBody, unescapeChar]
  by_cases h2 : c = '\\'
  · subst h2; simp [escapeChar, parseStringBody, unescapeChar]
  by_cases h3 : c = '\x08'
  · subst h3; simp [escapeChar, parseStringBody, unescapeChar]
  by_cases h4 : c = '\t'
  · subst h4; simp [escapeChar, parseStringBody, unescapeChar]
  by_cases h5 : c = '\n'
  · subst h5; simp [escapeChar, parseStringBody, unescapeChar]
  by_cases h6 : c = '\x0c'
  · subst h6; simp [escapeChar, parseStringBody, unescapeChar]
  by_cases h7 : c = '\r'
  · subst h7; simp [escapeChar, parseStringBody, unescapeChar]
  by_cases h8 : c.toNat < 0x20
  · have hdiv : c.toNat / 16 < 16 := by omega
    have hmod : c.toNat % 16 < 16 := Nat.mod_lt _ (by omega)
    have harith : ((0 * 16 + 0) * 16 + c.toNat / 16) * 16 + c.toNat % 16 = c.toNat := by
      omega
    simp only [escapeChar, if_neg h1, if_neg h2, if_neg h3, if_neg h4, if_neg h5,
      if_neg h6, if_neg h7, if_pos h8, List.cons_append]
    have h9 : c.toNat / 16 * 16 + c.toNat % 16 = c.toNat := by omega
    simp [parseStringBody, hexVal_hexDigit _ hdiv, hexVal_hexDigit _ hmod,
      show hexVal '0' = some 0 from rfl, harith, h9, Char.ofNat_toNat]
  · simp only [escapeChar, if_neg h1, if_neg h2, if_neg h3, if_neg h4, if_neg h5,
      if_neg h6, if_neg h7, if_neg h8, List.cons_append, List.nil_append]
    rw [parseStringBody.eq_def]
    simp [h1, h2, h8]

/-- Parsing an escaped body stops exactly at the closing quote and recovers
the original characters. -/
theorem parseStringBody_escapeChars (s : List Char) (rest : List Char) :
    parseStringBody (escapeChars s ++ '"' :: rest) = some (s, rest) := by
  induction s with
  | nil => rfl
  | cons c cs ih =>
    have hstep : escapeChars (c :: cs) = escapeChar c ++ escapeChars cs := rfl
    rw [hstep, List.append_assoc, parseStringBody_escapeChar, ih]
    rfl

/-- `skipWs` leaves any non-whitespace head alone. -/
theorem skipWs_not_ws (c : Char) (l : List Char) (h : isJsonWs c = false) :
    skipWs (c :: l) = c :: l := by
  simp [skipWs, h]

/-- Instances of `skipWs_not_ws` at the delimiters the stringifier emits. -/
theorem skipWs_quote (l : List Char) : skipWs ('"' :: l) = '"' :: l := rfl

/-- `skipWs` at a colon. -/
theorem skipWs_colon (l : List Char) : skipWs (':' :: l) = ':' :: l := rfl

/-- `skipWs` at a comma. -/
theorem skipWs_comma (l : List Char) : skipWs (',' :: l) = ',' :: l := rfl

/-- `skipWs` at a closing brace. -/
theorem skipWs_rbrace (l : List Char) : skipWs ('}' :: l) = '}' :: l := rfl

/-- `skipWs` at an opening brace. -/
theorem skipWs_lbrace (l : List Char) : skipWs ('{' :: l) = '{' :: l := rfl

/-- A rendered string literal parses as that string at any successor fuel:
string parsing spends no fuel. -/
theorem parseValue_quotedChars (fuel : Nat) (s : List Char) (rest : List Char) :
    parseValue (fuel + 1) ('"' :: (escapeChars s ++ '"' :: rest))
      = some (JsonValue.str ⟨s⟩, rest) := by
  simp [parseValue, parseStringBody_escapeChars]

/-- A rendered member list always starts with the opening quote of its first
key. -/
theorem membersChars_cons_head (kv : String × String) (t : List (String × String)) :
    ∃ l, membersChars (kv :: t) = '"' :: l := by
  cases t with
  | nil => exact ⟨_, rfl⟩
  | cons kv2 t2 => exact ⟨_, rfl⟩

/-- One-step unfolding of `parseMembers` at successor fuel (definitional). -/
theorem parseMembers_step (fuel : Nat) (cs : List Char)
    (acc : List (String × JsonValue)) :
    parseMembers (fuel + 1) cs acc
      = match cs with
        | '"' :: r0 =>
          match parseStringBody r0 with
          | none => none
          | some (k, r1) =>
            match skipWs r1 with
            | ':' :: r2 =>
              match parseValue fuel (skipWs r2) with
              | none => none
              | some (v, r3) =>
                match skipWs r3 with
                | ',' :: r4 => parseMembers fuel (skipWs r4) (acc ++ [(⟨k⟩, v)])
                | '}' :: r4 => some (JsonValue.obj (acc ++ [(⟨k⟩, v)]), r4)
                | _ => none
            | _ => none
        | _ => none := rfl

/-- Parsing the rendered members of a nonempty header map, with fuel at least
one more than the member count, consumes them up to the closing brace and
yields exactly the string-valued members, appended to the accumulator. -/
theorem parseMembers_headers (ms : List (String × String)) :
    ∀ (acc : List (String × JsonValue)) (fuel : Nat) (rest : List Char),
      ms ≠ [] → ms.length + 1 ≤ fuel →
      parseMembers fuel (membersChars ms ++ '}' :: rest) acc
        = some (JsonValue.obj
            (acc ++ ms.map fun kv => (kv.1, JsonValue.str kv.2)), rest) := by
  induction ms with
  | nil => intro acc fuel rest hne _; exact absurd rfl hne
  | cons kv t ih =>
    intro acc fuel rest _ hfuel
    obtain ⟨k, v⟩ := kv
    simp only [List.length_cons] at hfuel
    obtain ⟨f, rfl⟩ : ∃ f, fuel = f + 1 := ⟨fuel - 1, by omega⟩
    obtain ⟨f2, rfl⟩ : ∃ f2, f = f2 + 1 := ⟨f - 1, by omega⟩
    cases t with
    | nil =>
      have harg : membersChars [(k, v)] ++ '}' :: rest
          = '"' :: (escapeChars k.data
              ++ '"' :: (':' :: ('"' :: (escapeChars v.data
                ++ '"' :: ('}' :: rest))))) := by
        simp [membersChars, memberChars, quoteChars, List.cons_append,
          List.append_assoc]
      rw [harg, parseMembers_step]
      simp [parseStringBody_escapeChars, skipWs_colon, skipWs_quote,
        skipWs_rbrace, parseValue_quotedChars]
    | cons kv2 t2 =>
      have harg : membersChars ((k, v) :: kv2 :: t2) ++ '}' :: rest
          = '"' :: (escapeChars k.data
              ++ '"' :: (':' :: ('"' :: (escapeChars v.data
                ++ '"' :: (',' :: (membersChars (kv2 :: t2) ++ '}' :: rest)))))) := by
        simp [membersChars, memberChars, quoteChars, List.cons_append,
          List.append_assoc]
      obtain ⟨l, hl⟩ := membersChars_cons_head kv2 t2
      have hsk : skipWs (membersChars (kv2 :: t2) ++ '}' :: rest)
          = membersChars (kv2 :: t2) ++ '}' :: rest := by
        rw [hl, List.cons_append, skipWs_quote]
      rw [harg, parseMembers_step]
      simp only [parseStringBody_escapeChars, skipWs_colon,
        skipWs_quote, skipWs_comma, parseValue_quotedChars, hsk]
      rw [ih (acc ++ [(String.mk k.data, JsonValue.str (String.mk v.data))])
        (f2 + 1) rest (by simp) (by have h := List.length_cons kv2 t2; omega)]
      simp

/-- Parsing a rendered header object yields exactly `headersJson` of the map,
with fuel at least `length + 2`. -/
theorem parseValue_headers (ms : List (String × String)) (fuel : Nat)
    (rest : List Char) (hfuel : ms.length + 1 ≤ fuel) :
    parseValue (fuel + 1) ('{' :: (membersChars ms ++ '}' :: rest))
      = some (headersJson ms, rest) := by
  cases ms with
  | nil => simp [parseValue, membersChars, skipWs_rbrace, headersJson]
  | cons kv t =>
    obtain ⟨l, hl⟩ := membersChars_cons_head kv t
    have hcons : membersChars (kv :: t) ++ '}' :: rest
        = '"' :: (l ++ '}' :: rest) := by
      rw [hl, List.cons_append]
    simp only [parseValue]
    rw [hcons]
    simp [skipWs_quote]
    rw [← List.cons_append, ← hl,
      parseMembers_headers (kv :: t) [] fuel rest (by simp) hfuel]
    simp [headersJson]

/-- A rendered member list is never much shorter than its member count, so
the top-level fuel `input length + 1` always suffices. -/
theorem length_le_membersChars (ms : List (String × String)) :
    ms.length ≤ (membersChars ms).length + 1 := by
  induction ms with
  | nil => simp [membersChars]
  | cons kv t ih =>
    cases t with
    | nil => simp [membersChars]
    | cons kv2 t2 =>
      have hstep : membersChars (kv :: kv2 :: t2)
          = memberChars kv ++ ',' :: membersChars (kv2 :: t2) := rfl
      rw [hstep]
      simp only [List.length_cons, List.length_append] at ih ⊢
      omega

/-- The codec round-trip at the top level: `JSON.parse` of `JSON.stringify`
of a flat string-valued header object recovers the member list exactly. -/
theorem jsonParse_stringifyHeaders (ms : List (String × String)) :
    jsonParse (stringifyHeaders ms) = Except.ok (headersJson ms) := by
  have hdata : (stringifyHeaders ms).data = '{' :: (membersChars ms ++ ['}']) := rfl
  have hlen : (stringifyHeaders ms).data.length = (membersChars ms).length + 2 := by
    rw [hdata]; simp
  unfold jsonParse
  rw [hlen, hdata, skipWs_lbrace,
    parseValue_headers ms ((membersChars ms).length + 2) []
      (by have := length_le_membersChars ms; omega)]
  rfl

/-! ## The behaviour of `wrapHandler`, characterized once -/

/-- Running `wrapHandler` on any context and callback: the callback is
invoked exactly once, on `callbackWorld` — the passed context mutated in
place (name set, fresh transaction attached, truthy linkage consumed) with
the fresh transaction ambient — and the full event trace is the transaction
open, the possible linkage acceptance, the callback's own backend calls, and
the transaction close, in that order, with the callback's outcome
propagated unchanged. -/
theorem wrapHandler_run (txName : String) (tc : Option TraceContext)
    (cb : M Unit) (w : World) :
    wrapHandler newrelicModule txName tc cb w =
      ((cb (callbackWorld txName (tc.getD {}) w)).1,
       { (cb (callbackWorld txName (tc.getD {}) w)).2.1 with activeTx := w.activeTx },
       Event.txStart w.nextTxId txName ::
         (acceptEvents w.nextTxId (tc.getD {}).distributedTraceHeaders
           ++ (cb (callbackWorld txName (tc.getD {}) w)).2.2
           ++ [Event.txEnd w.nextTxId txName])) := by
  cases tc with
  | none =>
    simp [wrapHandler, newrelicModule, nrStartBackgroundTransaction, wrapHandlerBody,
      nrGetTransaction, prependEvents, acceptEvents, consumedHeaders, callbackWorld]
  | some c =>
    obtain ⟨n, t, d, ex⟩ := c
    cases d with
    | none =>
      simp [wrapHandler, newrelicModule, nrStartBackgroundTransaction, wrapHandlerBody,
        nrGetTransaction, prependEvents, acceptEvents, consumedHeaders, callbackWorld]
    | some v =>
      cases htr : v.truthy with
      | false =>
        simp [wrapHandler, newrelicModule, nrStartBackgroundTransaction, wrapHandlerBody,
          nrGetTransaction, prependEvents, acceptEvents, consumedHeaders, callbackWorld, htr]
      | true =>
        simp [wrapHandler, newrelicModule, nrStartBackgroundTransaction, wrapHandlerBody,
          nrGetTransaction, prependEvents, acceptEvents, consumedHeaders, callbackWorld, htr]

/-- The linkage-acceptance events never contain a transaction-close event. -/
theorem countP_isTxEndFor_acceptEvents (i txId : Nat) (name : String)
    (dth : Option JsonValue) :
    (acceptEvents i dth).countP (isTxEndFor txId name) = 0 := by
  cases dth with
  | none => rfl
  | some v =>
    cases htr : v.truthy <;> simp [acceptEvents, htr, isTxEndFor]

/-! ## The claims -/

/-- C1: the claim says `deserializeTraceMetadata` returns an empty context
and never raises on a malformed token.  The `part_000` variant does exactly
that, but the `src/src/index.ts` variant rejects with the `JSON.parse`
`SyntaxError`: at the malformed token `"not-json"` the factory variant's
deserializer is a rejected promise, while the `traceProvider` variant
returns `{}`, a context with no `distributedTraceHeaders` field.  The spec
mandates the degrade-gracefully policy, so the factory variant's behaviour
is the code bug this theorem exhibits. -/
theorem C1_deserialize_divergence :
    deserializeTraceMetadata "not-json" = Except.error jsonSyntaxError
    ∧ traceProvider.deserializeTraceMetadata (JsUnknown.str "not-json")
        = Except.ok ({} : TraceContext)
    ∧ ({} : TraceContext).distributedTraceHeaders = none :=
  ⟨rfl, rfl, rfl⟩

/-- C2: serializing a context whose `transaction` field is absent — which
includes an absent context and a fresh `{}` context — fails with the
missing-transaction error in both variants; no transaction handle is ever
synthesized. -/
theorem C2_serialize_missing_transaction (tc : Option TraceContext)
    (h : tc.bind TraceContext.transaction = none) :
    serializeTraceMetadata tc = Except.error missingTransactionError
    ∧ traceProvider.serializeTraceMetadata tc
        = Except.error missingTransactionError := by
  cases tc with
  | none => exact ⟨rfl, rfl⟩
  | some c =>
    have hc : c.transaction = none := by simpa using h
    constructor <;>
      simp [serializeTraceMetadata, traceProvider.serializeTraceMetadata, hc]

/-- Witness for C2 at the fresh context `{}`. -/
theorem C2_witness :
    ((some ({} : TraceContext)).bind TraceContext.transaction = none)
    ∧ serializeTraceMetadata (some ({} : TraceContext))
        = Except.error missingTransactionError
    ∧ traceProvider.serializeTraceMetadata (some ({} : TraceContext))
        = Except.error missingTransactionError :=
  ⟨rfl, (C2_serialize_missing_transaction (some {}) rfl).1,
    (C2_serialize_missing_transaction (some {}) rfl).2⟩

/-- C3: for every header mapping `H` (string keys to string values; a
mapping, so keys are distinct — the hypothesis records that, since the
JavaScript object `insertDistributedTraceHeaders` fills cannot carry
duplicate keys), deserializing the string `serializeTraceMetadata` produces
for a context whose backend extracts `H` yields a context whose
`distributedTraceHeaders` is exactly the JSON object with members `H` —
under both variants' deserializers. -/
theorem C3_round_trip (H : List (String × String))
    (hnd : (H.map Prod.fst).Nodup) (txId : Nat) :
    ∃ s : String,
      serializeTraceMetadata (some { transaction := some ⟨txId, H⟩ }) = Except.ok s
      ∧ deserializeTraceMetadata s
          = Except.ok { distributedTraceHeaders := some (headersJson H) }
      ∧ traceProvider.deserializeTraceMetadata (JsUnknown.str s)
          = Except.ok { distributedTraceHeaders := some (headersJson H) } := by
  refine ⟨stringifyHeaders H, rfl, ?_, ?_⟩ <;>
    simp [deserializeTraceMetadata, traceProvider.deserializeTraceMetadata,
      jsonParse_stringifyHeaders]

/-- Witness for C3 at a concrete two-header mapping. -/
theorem C3_witness :
    (([("traceparent", "00-ab42"), ("tracestate", "nr=1")].map
        (Prod.fst (α := String) (β := String))).Nodup)
    ∧ ∃ s : String,
      serializeTraceMetadata
          (some ⟨none,
            some ⟨7, [("traceparent", "00-ab42"), ("tracestate", "nr=1")]⟩,
            none, []⟩)
        = Except.ok s
      ∧ deserializeTraceMetadata s
          = Except.ok ⟨none, none,
              some (headersJson [("traceparent", "00-ab42"), ("tracestate", "nr=1")]), []⟩
      ∧ traceProvider.deserializeTraceMetadata (JsUnknown.str s)
          = Except.ok ⟨none, none,
              some (headersJson [("traceparent", "00-ab42"), ("tracestate", "nr=1")]), []⟩ :=
  ⟨by decide,
    C3_round_trip [("traceparent", "00-ab42"), ("tracestate", "nr=1")] (by decide) 7⟩

/-- C4: after `wrapHandler` runs on a context carrying truthy inbound
linkage, the shared context object has no `distributedTraceHeaders` field
any more — it was consumed exactly once before the callback ran, so a later
transaction reusing the object cannot re-accept it.  The callback hypothesis
records that the wrapped application code does not itself re-create the
field (in the model the callback is an arbitrary state transformer, so
nothing else could restore it). -/
theorem C4_one_shot (txName : String) (c : TraceContext) (v : JsonValue)
    (cb : M Unit) (w : World)
    (hdth : c.distributedTraceHeaders = some v) (htr : v.truthy = true)
    (hcb : ∀ w', w'.ctx.distributedTraceHeaders = none →
      ((cb w').2.1).ctx.distributedTraceHeaders = none) :
    ((wrapHandler newrelicModule txName (some c) cb w).2.1).ctx.distributedTraceHeaders
      = none := by
  rw [wrapHandler_run]
  exact hcb _ (by simp [callbackWorld, consumedHeaders, hdth, htr])

/-- Witness for C4 at a concrete linkage-carrying context and the trivial
callback. -/
theorem C4_witness :
    (⟨none, none, some (JsonValue.obj []), []⟩ : TraceContext).distributedTraceHeaders
        = some (JsonValue.obj [])
    ∧ (JsonValue.obj []).truthy = true
    ∧ ((wrapHandler newrelicModule "handler"
          (some ⟨none, none, some (JsonValue.obj []), []⟩)
          pureCallback initialWorld).2.1).ctx.distributedTraceHeaders = none :=
  ⟨rfl, rfl,
    C4_one_shot "handler" ⟨none, none, some (JsonValue.obj []), []⟩ (JsonValue.obj [])
      pureCallback initialWorld rfl rfl (fun _ h => h)⟩

/-- C5: when the callback rejects with an error `E`, `wrapHandler` rejects
with that same `E` — no swallowing or replacement — and the event trace
still closes the transaction it opened exactly once.  The second hypothesis
records that the callback does not itself forge a close event for the very
transaction `wrapHandler` opened (no callback built from the backend
primitives can: nested transactions get fresh identifiers). -/
theorem C5_error_propagation (txName : String) (tc : Option TraceContext)
    (cb : M Unit) (w : World) (E : JsError)
    (hcb : ∀ w', (cb w').1 = Except.error E)
    (hforge : ∀ w', ((cb w').2.2.countP (isTxEndFor w.nextTxId txName)) = 0) :
    (wrapHandler newrelicModule txName tc cb w).1 = Except.error E
    ∧ ((wrapHandler newrelicModule txName tc cb w).2.2.countP
        (isTxEndFor w.nextTxId txName)) = 1 := by
  rw [wrapHandler_run]
  refine ⟨hcb _, ?_⟩
  simp [List.countP_cons, List.countP_append, hforge, isTxEndFor,
    countP_isTxEndFor_acceptEvents]

/-- Witness for C5 at a concrete throwing callback. -/
theorem C5_witness :
    (∀ w', (throwCallback (JsError.error "boom") w').1
        = Except.error (JsError.error "boom"))
    ∧ (wrapHandler newrelicModule "handler" none
        (throwCallback (JsError.error "boom")) initialWorld).1
        = Except.error (JsError.error "boom")
    ∧ ((wrapHandler newrelicModule "handler" none
        (throwCallback (JsError.error "boom")) initialWorld).2.2.countP
          (isTxEndFor initialWorld.nextTxId "handler")) = 1 :=
  ⟨fun _ => rfl,
    (C5_error_propagation "handler" none (throwCallback (JsError.error "boom"))
      initialWorld (JsError.error "boom") (fun _ => rfl) (fun _ => rfl)).1,
    (C5_error_propagation "handler" none (throwCallback (JsError.error "boom"))
      initialWorld (JsError.error "boom") (fun _ => rfl) (fun _ => rfl)).2⟩

/-- C6: with truthy inbound linkage `v`, the whole event trace of
`wrapHandler` is the transaction open and the acceptance of `v`, then every
event of the callback, then the transaction close: acceptance strictly
precedes everything the callback does, and the callback starts in a state
whose context has the linkage already consumed, so any probe, segment or
serialization inside it observes the linkage accepted. -/
theorem C6_acceptance_before_callback (txName : String) (c : TraceContext)
    (v : JsonValue) (cb : M Unit) (w : World)
    (hdth : c.distributedTraceHeaders = some v) (htr : v.truthy = true) :
    (wrapHandler newrelicModule txName (some c) cb w).2.2 =
      [Event.txStart w.nextTxId txName, Event.acceptHeaders w.nextTxId "Queue" v]
        ++ (cb (callbackWorld txName c w)).2.2
        ++ [Event.txEnd w.nextTxId txName]
    ∧ (callbackWorld txName c w).ctx.distributedTraceHeaders = none := by
  constructor
  · rw [wrapHandler_run]
    simp [acceptEvents, hdth, htr]
  · simp [callbackWorld, consumedHeaders, hdth, htr]

/-- Witness for C6 at a concrete linkage-carrying context. -/
theorem C6_witness :
    (⟨none, none, some (JsonValue.obj []), []⟩ : TraceContext).distributedTraceHeaders
        = some (JsonValue.obj [])
    ∧ (JsonValue.obj []).truthy = true
    ∧ (wrapHandler newrelicModule "handler"
          (some ⟨none, none, some (JsonValue.obj []), []⟩)
          pureCallback initialWorld).2.2 =
        [Event.txStart 0 "handler", Event.acceptHeaders 0 "Queue" (JsonValue.obj []),
          Event.txEnd 0 "handler"] :=
  ⟨rfl, rfl, by
    have h := (C6_acceptance_before_callback "handler"
      ⟨none, none, some (JsonValue.obj []), []⟩
      (JsonValue.obj []) pureCallback initialWorld rfl rfl).1
    simpa using h⟩

/-- C7: with an empty or absent `segmentName`, `wrapHandlerSegment` starts a
segment named after the context — `txName ++ "-segment"` — and a non-empty
`segmentName` is used as given; either way the segment tracks asynchronous
suspension (`true`) and wraps exactly the callback's events. -/
theorem C7_default_segment_name (segmentName : Option String) (c : TraceContext)
    (n : String) (cb : M Unit) (w : World) (hname : c.txName = some n) :
    ((segmentName = none ∨ segmentName = some "") →
      (wrapHandlerSegment newrelicModule segmentName (some c) cb w).2.2 =
        Event.segStart (n ++ "-segment") true ::
          ((cb w).2.2 ++ [Event.segEnd (n ++ "-segment")]))
    ∧ (∀ s : String, segmentName = some s → ¬s = "" →
      (wrapHandlerSegment newrelicModule segmentName (some c) cb w).2.2 =
        Event.segStart s true :: ((cb w).2.2 ++ [Event.segEnd s])) := by
  constructor
  · rintro (rfl | rfl) <;>
      simp [wrapHandlerSegment, newrelicModule, nrStartSegment,
        jsStringOrDefault, jsTemplateString, hname]
  · rintro s rfl hs
    simp [wrapHandlerSegment, newrelicModule, nrStartSegment, jsStringOrDefault, hs]

/-- Witness for C7: a context named `Foo` yields a segment `Foo-segment`. -/
theorem C7_witness :
    (⟨some "Foo", none, none, []⟩ : TraceContext).txName = some "Foo"
    ∧ (wrapHandlerSegment newrelicModule none
        (some ⟨some "Foo", none, none, []⟩) pureCallback initialWorld).2.2 =
      [Event.segStart "Foo-segment" true, Event.segEnd "Foo-segment"] :=
  ⟨rfl, by
    have h := (C7_default_segment_name none ⟨some "Foo", none, none, []⟩ "Foo"
      pureCallback initialWorld rfl).1 (Or.inl rfl)
    simpa using h⟩

/-- C8: an absent context is defaulted to a fresh `{}` and is no error — a
non-throwing callback makes the whole call succeed; and for a passed-in
context, the callback is invoked on that same object mutated in place:
its `txName` already set to the transaction name, its application-owned
fields untouched, with the full run of `wrapHandler` factoring through that
single callback invocation. -/
theorem C8_context_defaulting_and_mutation :
    (∀ (txName : String) (cb : M Unit) (w : World),
      (∀ w', (cb w').1 = Except.ok ()) →
      (wrapHandler newrelicModule txName none cb w).1 = Except.ok ())
    ∧ (∀ (txName : String) (c : TraceContext) (cb : M Unit) (w : World),
      (callbackWorld txName c w).ctx.txName = some txName
      ∧ (callbackWorld txName c w).ctx.extra = c.extra
      ∧ wrapHandler newrelicModule txName (some c) cb w =
          ((cb (callbackWorld txName c w)).1,
           { (cb (callbackWorld txName c w)).2.1 with activeTx := w.activeTx },
           Event.txStart w.nextTxId txName ::
             (acceptEvents w.nextTxId c.distributedTraceHeaders
               ++ (cb (callbackWorld txName c w)).2.2
               ++ [Event.txEnd w.nextTxId txName]))) := by
  constructor
  · intro txName cb w hcb
    rw [wrapHandler_run]
    exact hcb _
  · intro txName c cb w
    exact ⟨rfl, rfl, wrapHandler_run txName (some c) cb w⟩

/-- Witness for C8 at an absent context with the trivial callback, and at a
context carrying an application-owned field. -/
theorem C8_witness :
    (wrapHandler newrelicModule "job" none pureCallback initialWorld).1
        = Except.ok ()
    ∧ (callbackWorld "job" ⟨none, none, none, [("app", "x")]⟩ initialWorld).ctx.txName
        = some "job"
    ∧ (callbackWorld "job" ⟨none, none, none, [("app", "x")]⟩ initialWorld).ctx.extra
        = [("app", "x")] :=
  ⟨C8_context_defaulting_and_mutation.1 "job" pureCallback initialWorld (fun _ => rfl),
    (C8_context_defaulting_and_mutation.2 "job" ⟨none, none, none, [("app", "x")]⟩
      pureCallback initialWorld).1,
    (C8_context_defaulting_and_mutation.2 "job" ⟨none, none, none, [("app", "x")]⟩
      pureCallback initialWorld).2.1⟩

/-- C9: `onError` ignores its context argument — any two contexts give the
same behaviour — and under the concrete backend it reports the error to the
backend exactly once (a single `errorNoticed` event), never throws
(`Except.ok`), and leaves the machine state untouched. -/
theorem C9_onError_ambient :
    (∀ (nr : NewRelicModule) (e : JsError) (c1 c2 : Option TraceContext),
      onError nr e c1 = onError nr e c2)
    ∧ (∀ (e : JsError) (c : Option TraceContext) (w : World),
      onError newrelicModule e c w = (Except.ok (), w, [Event.errorNoticed e])) :=
  ⟨fun _ _ _ _ => rfl, fun _ _ _ => rfl⟩

/-- C10: `getTraceProvider` returns `undefined` exactly on an absent backend
module, and for every present module it returns the provider object whose
five operations are the five operations of the repository closing over that
module. -/
theorem C10_factory_presence :
    getTraceProvider none = none
    ∧ ∀ nr : NewRelicModule,
      getTraceProvider (some nr) =
        some ⟨wrapHandler nr, wrapHandlerSegment nr, onError nr,
          serializeTraceMetadata, deserializeTraceMetadata⟩ :=
  ⟨rfl, fun _ => rfl⟩
